import Mathlib

/-!
Verification of the Gold-Silver-Ratio analytics core.

Shallow embedding of the metric pipeline (`app/services/metrics.py`), the
signal generator (`app/services/signals.py`) and the backtesting engine
(`app/services/backtest.py`).  Time series are lists of
`(timestamp, value)` pairs with timestamps in `ℤ` and exact rational
values; the IEEE-754 special values produced by pandas division are
modelled explicitly by the carrier `FVal`.
-/

namespace GSR

/-- Carrier for a pandas float cell: either a finite rational, one of the
two infinities, or NaN.  `pd.isna` is true exactly on `nan`. -/
inductive FVal where
  | nan
  | pinf
  | ninf
  | fin (q : ℚ)
deriving DecidableEq, Repr

/-- IEEE-754 division of two finite values as numpy/pandas perform it:
`a / 0` is NaN when `a = 0` and a signed infinity otherwise; any other
division is exact. -/
def fdiv (a b : ℚ) : FVal :=
  if b = 0 then
    if a = 0 then FVal.nan
    else if 0 < a then FVal.pinf
    else FVal.ninf
  else FVal.fin (a / b)

/-- Core of compute_gsr (metrics.py lines 119-135): inner-merge the gold and
silver close-price series on exact timestamp (`pd.merge(..., how="inner")`,
which keeps left order and, per left row, right order) and divide the gold
close by the silver close on every joined row.  No zero check is made on
the silver price; the division is the pandas float division. -/
def compute_gsr (gold silver : List (ℤ × ℚ)) : List (ℤ × FVal) :=
  gold.flatMap fun g =>
    silver.filterMap fun s =>
      if s.1 = g.1 then some (g.1, fdiv g.2 s.2) else none

/-! Rolling statistics: compute_gsr_rolling_stats in metrics.py. -/

/-- The trailing `w`-point window of `xs` ending at index `i`
(the window `pandas.rolling(window=w)` hands to its aggregation). -/
def trailing_window (w : ℕ) (xs : List ℚ) (i : ℕ) : List ℚ :=
  (xs.take (i + 1)).drop (i + 1 - w)

/-- Arithmetic mean of a window (`rolling(...).mean()`). -/
def window_mean (win : List ℚ) : ℚ := win.sum / win.length

/-- Sample variance of a window (`rolling(...).std()` squares to this:
pandas uses `ddof = 1`). -/
def window_var (win : List ℚ) : ℚ :=
  (win.map fun x => (x - window_mean win) ^ 2).sum / ((win.length : ℚ) - 1)

/-- Value of pd.Series(x).rank(pct=True).iloc[-1] * 100 over a window whose last
element is `x`: the `average`-method rank of `x` — the number of entries
strictly below `x` plus half of `(ties + 1)` where the tie count includes
`x` itself — divided by the window length, times 100.  This is the body of
the lambda at metrics.py lines 242-247. -/
def rank_pct_last (win : List ℚ) (x : ℚ) : ℚ :=
  100 * ((win.countP fun y => decide (y < x) : ℚ)
          + ((win.countP fun y => decide (y = x) : ℚ) + 1) / 2)
    / (win.length : ℚ)

/-- Rolling percentile column `gsr_percentile_{w}`: missing (`NaN`, skipped
by the storage loop) before the window is full, otherwise the pandas
average-rank percentage of the newest value of the window. -/
def rolling_percentile (w : ℕ) (xs : List ℚ) (i : ℕ) : Option ℚ :=
  if i + 1 < w then none
  else some (rank_pct_last (trailing_window w xs i) (xs.getD i 0))

/-- Stored value of one float cell: `none` models NaN (line 281 of
metrics.py drops it via `pd.isna`); an infinity is *not* NaN and would be
stored. -/
noncomputable def ieee_div_store (a b : ℝ) : Option EReal :=
  if b = 0 then
    if a = 0 then none
    else if 0 < a then some ⊤
    else some ⊥
  else some ((a / b : ℝ) : EReal)

/-- Rolling z-score column `gsr_zscore_{w}` (metrics.py lines 237-240):
`(value - rolling_mean) / rolling_std` with pandas float semantics, where
`rolling_std` is the sample standard deviation.  The value is missing when
the window is not yet full, when `w ≤ 1` (a sample std of one point is
NaN), or when the division yields NaN. -/
noncomputable def rolling_zscore (w : ℕ) (xs : List ℚ) (i : ℕ) : Option EReal :=
  if i + 1 < w then none
  else if w ≤ 1 then none
  else
    ieee_div_store
      ((xs.getD i 0 - window_mean (trailing_window w xs i) : ℚ) : ℝ)
      (Real.sqrt ((window_var (trailing_window w xs i) : ℚ) : ℝ))

/-! Signal generation: signals.py. -/

/-- Direction tag handed to `calculate_signal_strength`
(the `signal_direction` string `"high"` / `"low"`). -/
inductive SignalDirection where
  | high
  | low
deriving DecidableEq, Repr

/-- Source function calculate_signal_strength (signals.py lines 185-240), verbatim
threshold structure: base 50; gsr bonus 20/10; z-score bonus 15/10 at
2.0 and 1.5 on the high side and at -1.5 and -1.0 on the low side;
percentile bonus 15/10 at 95/90 on the high side and at 10/20 on the low side;
result clamped into [0, 100]. -/
def calculate_signal_strength (gsr : ℚ) (z_score percentile : Option ℚ)
    (signal_direction : SignalDirection) : ℚ :=
  let strength : ℚ := 50
  match signal_direction with
  | SignalDirection.high =>
      let s1 := strength + (if 90 ≤ gsr then 20 else if 85 ≤ gsr then 10 else 0)
      let s2 := s1 + (match z_score with
        | some z => if 2 ≤ z then 15 else if 3 / 2 ≤ z then 10 else 0
        | none => 0)
      let s3 := s2 + (match percentile with
        | some p => if 95 ≤ p then 15 else if 90 ≤ p then 10 else 0
        | none => 0)
      min 100 (max 0 s3)
  | SignalDirection.low =>
      let s1 := strength + (if gsr ≤ 60 then 20 else if gsr ≤ 65 then 10 else 0)
      let s2 := s1 + (match z_score with
        | some z => if z ≤ -(3 / 2) then 15 else if z ≤ -1 then 10 else 0
        | none => 0)
      let s3 := s2 + (match percentile with
        | some p => if p ≤ 10 then 15 else if p ≤ 20 then 10 else 0
        | none => 0)
      min 100 (max 0 s3)

/-- Trigger dispatch of `generate_current_signals` (signals.py lines
125 and 154): the high-side branch fires on `gsr >= 85 or percentile >= 85`
and, only otherwise (`elif`), the low-side branch fires on
`gsr <= 65 or percentile <= 20`; a missing percentile skips its test. -/
def signal_trigger (gsr : ℚ) (percentile : Option ℚ) : Option SignalDirection :=
  if decide (85 ≤ gsr) || (match percentile with
      | some p => decide (85 ≤ p)
      | none => false) then
    some SignalDirection.high
  else if decide (gsr ≤ 65) || (match percentile with
      | some p => decide (p ≤ 20)
      | none => false) then
    some SignalDirection.low
  else
    none

/-! Backtesting engine: backtest.py. -/

/-- One row of the backtest input frame: timestamp, ratio value and the two
underlying close prices carried in the metadata of the metric value. -/
structure Bar where
  date : ℤ
  gsr : ℚ
  gold_price : ℚ
  silver_price : ℚ
deriving DecidableEq, Repr

/-- Trade direction (the `action` strings of backtest.py). -/
inductive Action where
  | gold_to_silver
  | silver_to_gold
deriving DecidableEq, Repr

/-- Record of one executed swap (class Trade, backtest.py lines 41-62). -/
structure Trade where
  date : ℤ
  action : Action
  gsr : ℚ
  gold_oz_before : ℚ
  silver_oz_before : ℚ
  gold_oz_after : ℚ
  silver_oz_after : ℚ
  cost : ℚ
deriving DecidableEq, Repr

/-- Configuration record (class BacktestConfig, backtest.py lines 19-38).  The start/end dates only
select the input series, which the embedding receives already filtered, so
they are not carried here.  Defaults follow the source. -/
structure BacktestConfig where
  initial_gold_oz : ℚ := 100
  gsr_high_threshold : ℚ := 85
  gsr_low_threshold : ℚ := 65
  position_size_pct : ℚ := 15
  transaction_cost_pct : ℚ := 1 / 50
deriving DecidableEq, Repr

/-- One equity-curve record (backtest.py lines 239-247). -/
structure EquityPoint where
  date : ℤ
  gold_oz : ℚ
  silver_oz : ℚ
  total_gold_oz : ℚ
  gsr : ℚ
deriving DecidableEq, Repr

/-- Loop state of `run_backtest`: the two balances, the debounce flag and
the two accumulated logs. -/
structure SimState where
  gold_oz : ℚ
  silver_oz : ℚ
  last_action : Option Action
  trades : List Trade
  equity_curve : List EquityPoint
deriving Repr

/-- One iteration of the `for date, row in df.iterrows()` loop of
`run_backtest` (backtest.py lines 230-317): record the equity point from
the pre-trade balances, then run the high-side branch, the low-side
`elif`, or nothing; inside a branch the swap happens only when the
to-be-swapped amount is strictly positive. -/
def sim_step (config : BacktestConfig) (st : SimState) (bar : Bar) : SimState :=
  let total_gold_oz := st.gold_oz + st.silver_oz * bar.silver_price / bar.gold_price
  let eq := st.equity_curve ++
    [⟨bar.date, st.gold_oz, st.silver_oz, total_gold_oz, bar.gsr⟩]
  if config.gsr_high_threshold ≤ bar.gsr ∧
      st.last_action ≠ some Action.gold_to_silver then
    let swap_amount_gold := st.gold_oz * (config.position_size_pct / 100)
    if 0 < swap_amount_gold then
      let net_amount_gold := swap_amount_gold * (1 - config.transaction_cost_pct)
      let silver_received := net_amount_gold * bar.gold_price / bar.silver_price
      ⟨st.gold_oz - swap_amount_gold, st.silver_oz + silver_received,
        some Action.gold_to_silver,
        st.trades ++ [⟨bar.date, Action.gold_to_silver, bar.gsr,
          st.gold_oz, st.silver_oz,
          st.gold_oz - swap_amount_gold, st.silver_oz + silver_received,
          swap_amount_gold * config.transaction_cost_pct⟩],
        eq⟩
    else ⟨st.gold_oz, st.silver_oz, st.last_action, st.trades, eq⟩
  else if bar.gsr ≤ config.gsr_low_threshold ∧
      st.last_action ≠ some Action.silver_to_gold then
    let swap_amount_silver := st.silver_oz * (config.position_size_pct / 100)
    if 0 < swap_amount_silver then
      let net_amount_silver := swap_amount_silver * (1 - config.transaction_cost_pct)
      let gold_received := net_amount_silver * bar.silver_price / bar.gold_price
      ⟨st.gold_oz + gold_received, st.silver_oz - swap_amount_silver,
        some Action.silver_to_gold,
        st.trades ++ [⟨bar.date, Action.silver_to_gold, bar.gsr,
          st.gold_oz, st.silver_oz,
          st.gold_oz + gold_received, st.silver_oz - swap_amount_silver,
          swap_amount_silver * bar.silver_price / bar.gold_price
            * config.transaction_cost_pct⟩],
        eq⟩
    else ⟨st.gold_oz, st.silver_oz, st.last_action, st.trades, eq⟩
  else ⟨st.gold_oz, st.silver_oz, st.last_action, st.trades, eq⟩

/-- Initial loop state (backtest.py lines 220-227): all value in gold, no
silver, no previous action, empty logs. -/
def init_state (config : BacktestConfig) : SimState :=
  ⟨config.initial_gold_oz, 0, none, [], []⟩

/-- The trade log the simulation loop produces over a series. -/
def backtest_trades (series : List Bar) (config : BacktestConfig) : List Trade :=
  (series.foldl (sim_step config) (init_state config)).trades

/-- Predicate of BacktestResult (backtest.py lines 99-102): the gold balance
strictly increased across the trade. -/
def is_winning_trade (t : Trade) : Bool :=
  decide (t.gold_oz_before < t.gold_oz_after)

/-- Result record (class BacktestResult) with the metrics computed in its constructor
(backtest.py lines 65-97).  `max_drawdown` and `sharpe_ratio` involve real
square roots and are not needed by any statement here, so they are not
carried. -/
structure BacktestResult where
  final_gold_oz : ℚ
  trades : List Trade
  equity_curve : List EquityPoint
  gold_oz_gain : ℚ
  gold_oz_gain_pct : ℚ
  total_swaps : ℕ
  winning_swaps : ℕ
  win_rate : ℚ
deriving Repr

/-- The statistics block of `BacktestResult.__init__`. -/
def mk_result (config : BacktestConfig) (final_gold_oz : ℚ)
    (trades : List Trade) (equity_curve : List EquityPoint) : BacktestResult :=
  let total_swaps := trades.length
  let winning_swaps := trades.countP is_winning_trade
  ⟨final_gold_oz, trades, equity_curve,
    final_gold_oz - config.initial_gold_oz,
    (final_gold_oz / config.initial_gold_oz - 1) * 100,
    total_swaps, winning_swaps,
    if 0 < total_swaps then (winning_swaps : ℚ) / (total_swaps : ℚ) else 0⟩

/-- Main simulation entry point (backtest.py lines 161-337) over an already-fetched,
timestamp-ordered series: raises `ValueError` on an empty series, then
folds the trading loop and values the final balances at the prices of the
last bar.  No validation of the config fields is performed anywhere. -/
def run_backtest (series : List Bar) (config : BacktestConfig) :
    Except String BacktestResult :=
  match series.getLast? with
  | none => Except.error "No GSR data found for backtest period"
  | some last_bar =>
      let st := series.foldl (sim_step config) (init_state config)
      Except.ok (mk_result config
        (st.gold_oz + st.silver_oz * last_bar.silver_price / last_bar.gold_price)
        st.trades st.equity_curve)

/-! Parameter optimizer: optimize_parameters in backtest.py. -/

/-- One entry of `all_results` (backtest.py lines 381-394); the
`sharpe_ratio` field is real-valued and unused here. -/
structure OptEntry where
  gsr_high : ℚ
  gsr_low : ℚ
  position_size : ℚ
  transaction_cost : ℚ
  gold_oz_gain_pct : ℚ
  win_rate : ℚ
  total_swaps : ℕ
deriving Repr

/-- The parameter quadruple of an `all_results` entry. -/
def OptEntry.params (e : OptEntry) : ℚ × ℚ × ℚ × ℚ :=
  (e.gsr_high, e.gsr_low, e.position_size, e.transaction_cost)

/-- Accumulator of the grid search. -/
structure OptState where
  best_result : Option BacktestResult
  best_params : Option (ℚ × ℚ × ℚ × ℚ)
  all_results : List OptEntry

/-- The `BacktestConfig(...)` built for one grid combination
(backtest.py lines 369-376): dates select the series, the other fields
come from the combination, `initial_gold_oz` stays at its default. -/
def config_of (c : ℚ × ℚ × ℚ × ℚ) : BacktestConfig :=
  ⟨100, c.1, c.2.1, c.2.2.1, c.2.2.2⟩

/-- The four nested loops of the grid search, flattened in source order:
high threshold outermost, then low threshold, position size, transaction
cost.  A caller with a missing range passes the one-element default list
used by the source. -/
def combos (gsr_high gsr_low position_size transaction_cost : List ℚ) :
    List (ℚ × ℚ × ℚ × ℚ) :=
  gsr_high.flatMap fun h =>
    gsr_low.flatMap fun l =>
      position_size.flatMap fun s =>
        transaction_cost.map fun c => (h, l, s, c)

/-- Body of the innermost grid loop (backtest.py lines 378-411): run the
backtest; on any error `continue` to the next combination; on success
append the summary entry to `all_results` and take the lead when there is
no best result yet or the gain beats it. -/
def opt_step (series : List Bar) (acc : OptState) (c : ℚ × ℚ × ℚ × ℚ) :
    OptState :=
  match run_backtest series (config_of c) with
  | Except.error _ => acc
  | Except.ok r =>
      let entry : OptEntry :=
        ⟨c.1, c.2.1, c.2.2.1, c.2.2.2, r.gold_oz_gain_pct, r.win_rate,
          r.total_swaps⟩
      let better := match acc.best_result with
        | none => true
        | some b => decide (b.gold_oz_gain_pct < r.gold_oz_gain_pct)
      if better then ⟨some r, some c, acc.all_results ++ [entry]⟩
      else ⟨acc.best_result, acc.best_params, acc.all_results ++ [entry]⟩

/-- Grid search over parameter ranges (backtest.py lines 340-417). -/
def optimize_parameters (series : List Bar)
    (gsr_high gsr_low position_size transaction_cost : List ℚ) : OptState :=
  (combos gsr_high gsr_low position_size transaction_cost).foldl
    (opt_step series) ⟨none, none, []⟩

/-! Theorems. -/

/-- C2: for every pair of non-empty price series with a non-zero silver
value at every jointly-present timestamp, compute_gsr produces, exactly at
the timestamps present in both inputs, the gold close divided by the
silver close, and produces no point for a timestamp present in only one
input. -/
theorem compute_gsr_inner_join (gold silver : List (ℤ × ℚ))
    (hg : gold ≠ []) (hs : silver ≠ [])
    (hz : ∀ p ∈ silver, p.2 ≠ 0) :
    (∀ (t : ℤ) (va vb : ℚ), (t, va) ∈ gold → (t, vb) ∈ silver →
        (t, FVal.fin (va / vb)) ∈ compute_gsr gold silver) ∧
    (∀ (t : ℤ) (v : FVal), (t, v) ∈ compute_gsr gold silver →
        ∃ va vb : ℚ, (t, va) ∈ gold ∧ (t, vb) ∈ silver ∧ v = FVal.fin (va / vb)) := by
  constructor
  · intro t va vb hga hsb
    simp only [compute_gsr, List.mem_flatMap, List.mem_filterMap]
    refine ⟨(t, va), hga, (t, vb), hsb, ?_⟩
    have hvb : vb ≠ 0 := hz (t, vb) hsb
    simp [fdiv, hvb]
  · intro t v hmem
    simp only [compute_gsr, List.mem_flatMap, List.mem_filterMap] at hmem
    obtain ⟨g, hg', s, hs', heq⟩ := hmem
    by_cases hts : s.1 = g.1
    · rw [if_pos hts] at heq
      injection heq with heq
      injection heq with heq1 heq2
      refine ⟨g.2, s.2, ?_, ?_, ?_⟩
      · rw [← heq1]; exact hg'
      · rw [← heq1, ← hts]; exact hs'
      · have hsz : s.2 ≠ 0 := hz s hs'
        rw [← heq2]
        simp [fdiv, hsz]
    · rw [if_neg hts] at heq
      exact absurd heq (by simp)

/-- Witness for C2 at a concrete joined pair of one-point series. -/
theorem compute_gsr_inner_join_witness :
    (((0 : ℤ), (2000 : ℚ)) ∈ [((0 : ℤ), (2000 : ℚ))]) ∧
    (((0 : ℤ), FVal.fin ((2000 : ℚ) / 25)) ∈
      compute_gsr [((0 : ℤ), (2000 : ℚ))] [((0 : ℤ), (25 : ℚ))]) :=
  ⟨by decide,
    (compute_gsr_inner_join [(0, 2000)] [(0, 25)] (by decide) (by decide)
      (by decide)).1 0 2000 25 (by decide) (by decide)⟩

/-- C7 counterexample: a joined point whose silver close is zero is not
excluded from the compute_gsr output; the stored ratio is the IEEE
positive infinity. -/
theorem compute_gsr_zero_denominator_cx :
    compute_gsr [((0 : ℤ), (5 : ℚ))] [((0 : ℤ), (0 : ℚ))] = [(0, FVal.pinf)] := by
  decide

/-- C7 amended: a joined point with a zero silver close is kept in the
result, carrying the IEEE division value — positive infinity for a
positive gold close, NaN for a zero one, negative infinity for a negative
one; no exclusion and no report happen. -/
theorem compute_gsr_zero_denominator (gold silver : List (ℤ × ℚ)) (t : ℤ)
    (va : ℚ) (hga : (t, va) ∈ gold) (hsb : (t, (0 : ℚ)) ∈ silver) :
    ((t, fdiv va 0) ∈ compute_gsr gold silver) ∧
    (0 < va → fdiv va 0 = FVal.pinf) ∧
    (va = 0 → fdiv va 0 = FVal.nan) ∧
    (va < 0 → fdiv va 0 = FVal.ninf) := by
  refine ⟨?_, ?_, ?_, ?_⟩
  · simp only [compute_gsr, List.mem_flatMap, List.mem_filterMap]
    exact ⟨(t, va), hga, (t, 0), hsb, by simp⟩
  · intro h; simp [fdiv, h, ne_of_gt h]
  · intro h; simp [fdiv, h]
  · intro h; simp [fdiv, h, not_lt.mpr h.le, h.ne]

/-- Witness for C7 at the concrete series of the counterexample. -/
theorem compute_gsr_zero_denominator_witness :
    (((0 : ℤ), fdiv 5 0) ∈ compute_gsr [((0 : ℤ), (5 : ℚ))] [((0 : ℤ), (0 : ℚ))]) ∧
    (0 < (5 : ℚ) → fdiv 5 0 = FVal.pinf) ∧
    ((5 : ℚ) = 0 → fdiv 5 0 = FVal.nan) ∧
    ((5 : ℚ) < 0 → fdiv 5 0 = FVal.ninf) :=
  compute_gsr_zero_denominator [(0, 5)] [(0, 0)] 0 5 (by decide) (by decide)

/-- C3 counterexample: with position_size_pct = 200 (outside the unit
interval times 100) and transaction_cost_pct = 2 (outside [0,1)),
run_backtest on a one-bar series still succeeds instead of failing with an
invalid-configuration error. -/
theorem run_backtest_no_config_validation_cx :
    (run_backtest [⟨0, 85, 2000, 25⟩] ⟨100, 85, 65, 200, 2⟩).isOk = true := rfl

/-- C3 amended: run_backtest performs no validation of
position_size_pct or transaction_cost_pct at all; on any non-empty input
series it completes normally for every configuration, and its only failure
before the loop is the no-data error on an empty series. -/
theorem run_backtest_no_config_validation :
    (∀ (series : List Bar) (config : BacktestConfig), series ≠ [] →
        (run_backtest series config).isOk = true) ∧
    (∀ config : BacktestConfig,
        run_backtest [] config =
          Except.error "No GSR data found for backtest period") := by
  constructor
  · intro series config h
    rw [run_backtest]
    cases hl : series.getLast? with
    | none => exact absurd (List.getLast?_eq_none_iff.mp hl) h
    | some b => rfl
  · intro config
    rfl

/-- Length of a full trailing window. -/
lemma trailing_window_length (w : ℕ) (xs : List ℚ) (i : ℕ)
    (hiw : w ≤ i + 1) (hi : i < xs.length) :
    (trailing_window w xs i).length = w := by
  simp [trailing_window, List.length_drop, List.length_take]
  omega

/-- The newest value of a full trailing window is one of its entries. -/
lemma getD_mem_trailing_window (w : ℕ) (xs : List ℚ) (i : ℕ)
    (hw : 1 ≤ w) (hiw : w ≤ i + 1) (hi : i < xs.length) :
    xs.getD i 0 ∈ trailing_window w xs i := by
  have hmem : (trailing_window w xs i)[w - 1]? = some (xs.getD i 0) := by
    rw [trailing_window, List.getElem?_drop,
      show i + 1 - w + (w - 1) = i by omega,
      List.getElem?_take, if_pos (by omega : i < i + 1),
      List.getElem?_eq_getElem hi, List.getD_eq_getElem xs 0 hi]
  obtain ⟨hn, heq⟩ := List.getElem?_eq_some.mp hmem
  exact heq ▸ List.getElem_mem hn

/-- Percentile as the claim words it: 100 times the fraction of trailing
window values strictly less than the newest value, ties counted as
not-less.  Written from the spec, for comparison with rank_pct_last. -/
def percentile_strict_spec (win : List ℚ) (x : ℚ) : ℚ :=
  100 * (win.countP fun y => decide (y < x) : ℚ) / (win.length : ℚ)

/-- C4 counterexample: over the strictly increasing series [1, 2, 3] with
w = 3, the code stores percentile 100 for the last value, while the
strictly-less fraction demanded by the claim is 200/3. -/
theorem rolling_percentile_strict_cx :
    rolling_percentile 3 [1, 2, 3] 2 = some 100 ∧
    percentile_strict_spec (trailing_window 3 [1, 2, 3] 2)
      (([1, 2, 3] : List ℚ).getD 2 0) = 200 / 3 ∧
    ((100 : ℚ) ≠ 200 / 3) := by
  refine ⟨?_, ?_, by norm_num⟩
  · rw [rolling_percentile, if_neg (by norm_num)]
    norm_num [trailing_window, rank_pct_last, List.countP_cons]
  · norm_num [percentile_strict_spec, trailing_window, List.countP_cons]

/-- C4 amended: at every full window the stored percentile is the pandas
average-rank percentage, equal to the strictly-less fraction of the claim
plus 100 (ties + 1) / (2 w) where the tie count includes the newest value
itself; in particular it always strictly exceeds the strictly-less
fraction. -/
theorem rolling_percentile_avg_rank (w : ℕ) (xs : List ℚ) (i : ℕ)
    (hw : 1 ≤ w) (hiw : w ≤ i + 1) (hi : i < xs.length) :
    rolling_percentile w xs i =
      some (percentile_strict_spec (trailing_window w xs i) (xs.getD i 0)
        + 100 * (((trailing_window w xs i).countP
              (fun y => decide (y = xs.getD i 0)) : ℚ) + 1) / (2 * (w : ℚ))) ∧
    percentile_strict_spec (trailing_window w xs i) (xs.getD i 0)
      < percentile_strict_spec (trailing_window w xs i) (xs.getD i 0)
        + 100 * (((trailing_window w xs i).countP
              (fun y => decide (y = xs.getD i 0)) : ℚ) + 1) / (2 * (w : ℚ)) := by
  have hlen := trailing_window_length w xs i hiw hi
  have hw0 : (0 : ℚ) < (w : ℚ) := by exact_mod_cast hw
  constructor
  · rw [rolling_percentile, if_neg (by omega)]
    congr 1
    rw [rank_pct_last, percentile_strict_spec, hlen]
    field_simp
    ring
  · have hpos : (0 : ℚ) < 100 * (((trailing_window w xs i).countP
        (fun y => decide (y = xs.getD i 0)) : ℚ) + 1) / (2 * (w : ℚ)) := by
      apply div_pos
      · have : (0 : ℚ) ≤ ((trailing_window w xs i).countP
            (fun y => decide (y = xs.getD i 0)) : ℚ) := Nat.cast_nonneg _
        nlinarith
      · nlinarith
    linarith

/-- Witness for C4 on the three-point series [1, 2, 2] with a tie at the
newest value. -/
theorem rolling_percentile_avg_rank_witness :
    (1 ≤ 3 ∧ 3 ≤ 2 + 1 ∧ 2 < ([1, 2, 2] : List ℚ).length) ∧
    rolling_percentile 3 [1, 2, 2] 2 =
      some (percentile_strict_spec (trailing_window 3 [1, 2, 2] 2)
          (([1, 2, 2] : List ℚ).getD 2 0)
        + 100 * (((trailing_window 3 [1, 2, 2] 2).countP
              (fun y => decide (y = ([1, 2, 2] : List ℚ).getD 2 0)) : ℚ) + 1)
            / (2 * ((3 : ℕ) : ℚ))) :=
  ⟨⟨by decide, by decide, by decide⟩,
    (rolling_percentile_avg_rank 3 [1, 2, 2] 2 (by decide) (by decide)
      (by decide)).1⟩

/-- Entries of a list of non-negative rationals summing to zero are all
zero. -/
lemma sum_eq_zero_of_nonneg (l : List ℚ) (h : ∀ x ∈ l, 0 ≤ x)
    (hs : l.sum = 0) : ∀ x ∈ l, x = 0 := by
  induction l with
  | nil => simp
  | cons a l ih =>
    simp only [List.sum_cons] at hs
    have ha : 0 ≤ a := h a (by simp)
    have hl : 0 ≤ l.sum := List.sum_nonneg fun x hx => h x (by simp [hx])
    have ha0 : a = 0 := by linarith
    have hls : l.sum = 0 := by linarith
    intro x hx
    rcases List.mem_cons.mp hx with rfl | hx
    · exact ha0
    · exact ih (fun y hy => h y (by simp [hy])) hls x hx

/-- C5: at every index whose full trailing window has zero sample
variance, the stored z-score is missing — the 0/0 of the pandas division
is NaN, which the storage loop skips; neither an infinity nor a zero is
stored. -/
theorem rolling_zscore_zero_variance (w : ℕ) (xs : List ℚ) (i : ℕ)
    (hiw : w ≤ i + 1) (hi : i < xs.length)
    (hvar : window_var (trailing_window w xs i) = 0) :
    rolling_zscore w xs i = none := by
  rw [rolling_zscore, if_neg (by omega)]
  by_cases h1 : w ≤ 1
  · rw [if_pos h1]
  · rw [if_neg h1]
    have hw : 1 ≤ w := by omega
    have hlen := trailing_window_length w xs i hiw hi
    set win := trailing_window w xs i with hwin
    have hden : ((win.length : ℚ) - 1) ≠ 0 := by
      rw [hlen]
      have h2 : (2 : ℚ) ≤ (w : ℚ) := by exact_mod_cast (by omega : 2 ≤ w)
      linarith
    have hsum : (win.map fun x => (x - window_mean win) ^ 2).sum = 0 := by
      rw [window_var] at hvar
      rcases div_eq_zero_iff.mp hvar with h | h
      · exact h
      · exact absurd h hden
    have hall : ∀ x ∈ win, x = window_mean win := by
      intro x hx
      have h2 : (x - window_mean win) ^ 2 = 0 :=
        sum_eq_zero_of_nonneg _
          (fun y hy => by
            obtain ⟨z, hz, rfl⟩ := List.mem_map.mp hy
            positivity)
          hsum _ (List.mem_map.mpr ⟨x, hx, rfl⟩)
      have h3 := pow_eq_zero_iff (two_ne_zero) |>.mp h2
      linarith
    have hx : xs.getD i 0 ∈ win := getD_mem_trailing_window w xs i hw hiw hi
    have hnum : xs.getD i 0 - window_mean win = 0 := by
      have := hall _ hx
      linarith
    simp only [ieee_div_store]
    rw [hvar, Rat.cast_zero, Real.sqrt_zero, if_pos rfl,
      if_pos (by rw [hnum]; exact Rat.cast_zero)]

/-- Witness for C5 on the constant three-point series [5, 5, 5]. -/
theorem rolling_zscore_zero_variance_witness :
    (3 ≤ 2 + 1 ∧ 2 < ([5, 5, 5] : List ℚ).length ∧
      window_var (trailing_window 3 [5, 5, 5] 2) = 0) ∧
    rolling_zscore 3 [5, 5, 5] 2 = none :=
  ⟨⟨by decide, by decide,
      by norm_num [window_var, window_mean, trailing_window]⟩,
    rolling_zscore_zero_variance 3 [5, 5, 5] 2 (by decide) (by decide)
      (by norm_num [window_var, window_mean, trailing_window])⟩

/-- The low-side strength the claim describes: base 50, the ratio bonuses
20 at 60 and 10 at 65, the z-score bonuses at the mirrored high-side
thresholds — 15 at -2.0 and 10 at -1.5 — and the percentile bonuses at
the mirrored high-side levels — 15 at 5 and 10 at 10 — clamped into
[0, 100].  Written from the claim, for comparison with
calculate_signal_strength. -/
def mirrored_low_strength (gsr : ℚ) (z_score percentile : Option ℚ) : ℚ :=
  let s1 : ℚ := 50 + (if gsr ≤ 60 then 20 else if gsr ≤ 65 then 10 else 0)
  let s2 : ℚ := s1 + (match z_score with
    | some z => if z ≤ -2 then 15 else if z ≤ -(3 / 2) then 10 else 0
    | none => 0)
  let s3 : ℚ := s2 + (match percentile with
    | some p => if p ≤ 5 then 15 else if p ≤ 10 then 10 else 0
    | none => 0)
  min 100 (max 0 s3)

/-- C6 counterexample: at ratio 70, z-score -1.2 and percentile 50 the
code awards the low-side 10-point z-score bonus already at -1.0 and
reaches strength 60, while the mirrored bonuses of the claim award
nothing above -1.5 and stay at 50. -/
theorem low_strength_mirror_cx :
    calculate_signal_strength 70 (some (-(6 / 5))) (some 50)
        SignalDirection.low = 60 ∧
    mirrored_low_strength 70 (some (-(6 / 5))) (some 50) = 50 ∧
    calculate_signal_strength 70 (some (-(6 / 5))) (some 50)
        SignalDirection.low ≠
      mirrored_low_strength 70 (some (-(6 / 5))) (some 50) := by
  refine ⟨?_, ?_, ?_⟩ <;>
    norm_num [calculate_signal_strength, mirrored_low_strength]

/-- Low-side ratio bonus actually awarded (signals.py lines 223-226). -/
def low_gsr_bonus (gsr : ℚ) : ℚ :=
  if gsr ≤ 60 then 20 else if gsr ≤ 65 then 10 else 0

/-- Low-side z-score bonus actually awarded (signals.py lines 228-232):
15 from -1.5 downward and 10 from -1.0 downward, not the mirror of the
high side, which awards 15 only from 2.0 upward. -/
def low_z_bonus (z_score : Option ℚ) : ℚ :=
  match z_score with
  | some z => if z ≤ -(3 / 2) then 15 else if z ≤ -1 then 10 else 0
  | none => 0

/-- Low-side percentile bonus actually awarded (signals.py lines
234-238): 15 at or below the 10th percentile and 10 at or below the 20th,
not the mirror of the high-side levels 95 and 90. -/
def low_pct_bonus (percentile : Option ℚ) : ℚ :=
  match percentile with
  | some p => if p ≤ 10 then 15 else if p ≤ 20 then 10 else 0
  | none => 0

/-- C6 amended: the low-side trigger is ratio ≤ 65 or percentile ≤ 20,
with high-side priority; the low-side strength is base 50 plus the actual
signals.py bonuses — ratio 20 at 60 and 10 at 65, z-score 15 at -1.5 and
10 at -1.0, percentile 15 at 10 and 10 at 20, which are not mirrors of
the high-side thresholds — clamped into [0, 100]. -/
theorem low_strength_actual :
    (∀ (gsr : ℚ) (z p : Option ℚ),
        calculate_signal_strength gsr z p SignalDirection.low =
          min 100 (max 0
            (50 + low_gsr_bonus gsr + low_z_bonus z + low_pct_bonus p)) ∧
        0 ≤ calculate_signal_strength gsr z p SignalDirection.low ∧
        calculate_signal_strength gsr z p SignalDirection.low ≤ 100) ∧
    (∀ (gsr : ℚ) (p : Option ℚ),
        signal_trigger gsr p = some SignalDirection.low ↔
          ((¬ (85 ≤ gsr ∨ ∃ pv, p = some pv ∧ 85 ≤ pv)) ∧
            (gsr ≤ 65 ∨ ∃ pv, p = some pv ∧ pv ≤ 20))) := by
  constructor
  · intro gsr z p
    refine ⟨rfl, ?_, ?_⟩
    · exact le_min (by norm_num) (le_max_left _ _)
    · exact min_le_left _ _
  · intro gsr p
    cases p with
    | none =>
        simp only [signal_trigger, Bool.or_false]
        split_ifs with h1 h2 <;>
          simp_all [decide_eq_true_eq]
    | some pv =>
        simp only [signal_trigger]
        split_ifs with h1 h2 <;>
          simp_all [Bool.or_eq_true, decide_eq_true_eq]

/-- C10: every executed swap decreases the same-bar gold-equivalent
equity by exactly the recorded cost — swap_amount_gold times
transaction_cost_pct for a gold_to_silver swap, swap_amount_silver times
silver_price over gold_price times transaction_cost_pct for a
silver_to_gold swap — and with a zero transaction cost a swap leaves the
same-bar equity unchanged. -/
theorem sim_step_equity_cost (config : BacktestConfig) (st : SimState)
    (bar : Bar) (hg : bar.gold_price ≠ 0) (hs : bar.silver_price ≠ 0) :
    ∀ t : Trade, (sim_step config st bar).trades = st.trades ++ [t] →
      ((sim_step config st bar).gold_oz
          + (sim_step config st bar).silver_oz * bar.silver_price / bar.gold_price
        = st.gold_oz + st.silver_oz * bar.silver_price / bar.gold_price
            - t.cost) ∧
      (t.action = Action.gold_to_silver →
        t.cost = st.gold_oz * (config.position_size_pct / 100)
            * config.transaction_cost_pct) ∧
      (t.action = Action.silver_to_gold →
        t.cost = st.silver_oz * (config.position_size_pct / 100)
            * bar.silver_price / bar.gold_price
            * config.transaction_cost_pct) ∧
      (config.transaction_cost_pct = 0 →
        (sim_step config st bar).gold_oz
            + (sim_step config st bar).silver_oz * bar.silver_price
                / bar.gold_price
          = st.gold_oz + st.silver_oz * bar.silver_price / bar.gold_price) := by
  intro t ht
  simp only [sim_step] at ht ⊢
  split_ifs at ht ⊢ with h1 h2 h3 h4
  · -- gold → silver executed
    have hts := List.append_cancel_left ht
    injection hts with h5
    subst h5
    refine ⟨?_, ?_, ?_, ?_⟩
    · field_simp
      ring
    · intro _
      rfl
    · intro habs
      simp at habs
    · intro h0
      rw [h0]
      field_simp
      ring
  · -- high-side branch with a zero swap appends no trade
    simp at ht
  · -- silver → gold executed
    have hts := List.append_cancel_left ht
    injection hts with h5
    subst h5
    refine ⟨?_, ?_, ?_, ?_⟩
    · field_simp
      ring
    · intro habs
      simp at habs
    · intro _
      rfl
    · intro h0
      rw [h0]
      field_simp
      ring
  · -- low-side branch with a zero swap appends no trade
    simp at ht
  · -- no branch taken
    simp at ht

/-- Witness for C10: the first bar of a default-size portfolio executes a
gold-to-silver swap whose same-bar equity change is its recorded cost. -/
theorem sim_step_equity_cost_witness :
    ((2000 : ℚ) ≠ 0) ∧ ((25 : ℚ) ≠ 0) ∧
    ((sim_step ⟨100, 85, 65, 15, 0⟩ ⟨100, 0, none, [], []⟩
          ⟨0, 85, 2000, 25⟩).gold_oz
        + (sim_step ⟨100, 85, 65, 15, 0⟩ ⟨100, 0, none, [], []⟩
            ⟨0, 85, 2000, 25⟩).silver_oz * (25 : ℚ) / (2000 : ℚ)
      = (100 : ℚ) + (0 : ℚ) * (25 : ℚ) / (2000 : ℚ)
          - (⟨0, Action.gold_to_silver, 85, 100, 0, 100 - 100 * (15 / 100),
              0 + 100 * (15 / 100) * (1 - 0) * 2000 / 25,
              100 * (15 / 100) * 0⟩ : Trade).cost) :=
  ⟨by norm_num, by norm_num,
    (sim_step_equity_cost ⟨100, 85, 65, 15, 0⟩ ⟨100, 0, none, [], []⟩
        ⟨0, 85, 2000, 25⟩ (by norm_num) (by norm_num)
        ⟨0, Action.gold_to_silver, 85, 100, 0, 100 - 100 * (15 / 100),
          0 + 100 * (15 / 100) * (1 - 0) * 2000 / 25, 100 * (15 / 100) * 0⟩
        (by
          norm_num [sim_step]
          rw [if_neg (by simp : ¬((none : Option Action) = some Action.gold_to_silver))])).1⟩

/-- Classification of a trade appended by one simulation step: with a
transaction cost below 1 and positive bar prices, a gold_to_silver trade
strictly decreases and a silver_to_gold trade strictly increases the gold
balance. -/
lemma sim_step_trade_classified (config : BacktestConfig) (st : SimState)
    (bar : Bar) (htc : config.transaction_cost_pct < 1)
    (hgp : 0 < bar.gold_price) (hsp : 0 < bar.silver_price)
    (t : Trade) (ht : t ∈ (sim_step config st bar).trades) :
    t ∈ st.trades ∨
      ((t.action = Action.gold_to_silver → is_winning_trade t = false) ∧
        (t.action = Action.silver_to_gold → is_winning_trade t = true)) := by
  simp only [sim_step] at ht
  split_ifs at ht with h1 h2 h3 h4
  · rcases List.mem_append.mp ht with h | h
    · exact Or.inl h
    · right
      simp only [List.mem_singleton] at h
      subst h
      refine ⟨fun _ => ?_, fun habs => by simp at habs⟩
      exact decide_eq_false (by simp only; linarith)
  · exact Or.inl ht
  · rcases List.mem_append.mp ht with h | h
    · exact Or.inl h
    · right
      simp only [List.mem_singleton] at h
      subst h
      refine ⟨fun habs => by simp at habs, fun _ => ?_⟩
      apply decide_eq_true
      have hrecv : 0 < st.silver_oz * (config.position_size_pct / 100)
          * (1 - config.transaction_cost_pct) * bar.silver_price
          / bar.gold_price := by
        apply div_pos _ hgp
        apply mul_pos _ hsp
        exact mul_pos h4 (by linarith)
      simp only
      linarith
  · exact Or.inl ht
  · exact Or.inl ht

/-- Preservation of the trade classification along the whole simulation
fold. -/
lemma backtest_trades_classified (config : BacktestConfig)
    (htc : config.transaction_cost_pct < 1) :
    ∀ (series : List Bar) (st : SimState),
      (∀ b ∈ series, 0 < b.gold_price ∧ 0 < b.silver_price) →
      (∀ t ∈ st.trades,
        (t.action = Action.gold_to_silver → is_winning_trade t = false) ∧
        (t.action = Action.silver_to_gold → is_winning_trade t = true)) →
      ∀ t ∈ (series.foldl (sim_step config) st).trades,
        (t.action = Action.gold_to_silver → is_winning_trade t = false) ∧
        (t.action = Action.silver_to_gold → is_winning_trade t = true) := by
  intro series
  induction series with
  | nil => intro st _ hst; simpa using hst
  | cons b bs ih =>
    intro st hb hst
    have hb1 := hb b (by simp)
    simp only [List.foldl_cons]
    refine ih (sim_step config st b) (fun x hx => hb x (by simp [hx])) ?_
    intro t ht
    rcases sim_step_trade_classified config st b htc hb1.1 hb1.2 t ht with h | h
    · exact hst t h
    · exact h

/-- The win_rate computed by the result constructor, under the trade
classification. -/
lemma mk_result_win_rate (config : BacktestConfig) (f : ℚ)
    (trades : List Trade) (eqc : List EquityPoint)
    (hcls : ∀ t ∈ trades,
      (t.action = Action.gold_to_silver → is_winning_trade t = false) ∧
      (t.action = Action.silver_to_gold → is_winning_trade t = true)) :
    (mk_result config f trades eqc).win_rate
      = ((mk_result config f trades eqc).trades.countP
            (fun t => decide (t.action = Action.silver_to_gold)) : ℚ)
          / ((mk_result config f trades eqc).trades.length : ℚ) := by
  have hcount : trades.countP is_winning_trade
      = trades.countP (fun t => decide (t.action = Action.silver_to_gold)) := by
    apply List.countP_congr
    intro t ht
    rcases hcls t ht with ⟨hgs, hsg⟩
    cases hac : t.action with
    | gold_to_silver => simp [is_winning_trade] at *; simp [hgs hac, hac]
    | silver_to_gold => simp [hsg hac, hac]
  simp only [mk_result]
  cases trades with
  | nil => simp
  | cons a l =>
      rw [if_pos (by simp)]
      rw [hcount]

/-- C9: with positive prices throughout and a transaction cost below 1,
every executed gold_to_silver trade is scored losing, every executed
silver_to_gold trade is scored winning, and the win rate therefore equals
the number of silver_to_gold trades divided by the total trade count. -/
theorem run_backtest_win_rate (series : List Bar) (config : BacktestConfig)
    (hp : ∀ b ∈ series, 0 < b.gold_price ∧ 0 < b.silver_price)
    (htc : config.transaction_cost_pct < 1) :
    (∀ t ∈ backtest_trades series config,
        (t.action = Action.gold_to_silver → is_winning_trade t = false) ∧
        (t.action = Action.silver_to_gold → is_winning_trade t = true)) ∧
    (run_backtest series config).map (fun r => r.win_rate)
      = (run_backtest series config).map (fun r =>
          (r.trades.countP
              (fun t => decide (t.action = Action.silver_to_gold)) : ℚ)
            / (r.trades.length : ℚ)) := by
  have hcls := backtest_trades_classified config htc series (init_state config)
    hp (by simp [init_state])
  refine ⟨hcls, ?_⟩
  rw [run_backtest]
  cases series.getLast? with
  | none => rfl
  | some b =>
      simp only [Except.map]
      exact congrArg Except.ok (mk_result_win_rate config _ _ _ hcls)

/-- Witness for C9 on a two-bar series executing one trade in each
direction with zero transaction cost. -/
theorem run_backtest_win_rate_witness :
    ((0 : ℚ) < 1) ∧
    (run_backtest [⟨0, 85, 2000, 25⟩, ⟨1, 60, 2000, 25⟩]
          ⟨100, 85, 65, 15, 0⟩).map (fun r => r.win_rate)
      = (run_backtest [⟨0, 85, 2000, 25⟩, ⟨1, 60, 2000, 25⟩]
          ⟨100, 85, 65, 15, 0⟩).map (fun r =>
          (r.trades.countP
              (fun t => decide (t.action = Action.silver_to_gold)) : ℚ)
            / (r.trades.length : ℚ)) :=
  ⟨by decide,
    (run_backtest_win_rate [⟨0, 85, 2000, 25⟩, ⟨1, 60, 2000, 25⟩]
        ⟨100, 85, 65, 15, 0⟩ (by decide) (by decide)).2⟩

/-- Debounce invariant: the last_action flag equals the direction of the
last logged trade, and the trade log alternates directions. -/
def sim_inv (st : SimState) : Prop :=
  List.Chain' (fun a b => a.action ≠ b.action) st.trades ∧
  st.last_action = st.trades.getLast?.map (fun t => t.action)

/-- One simulation step preserves the debounce invariant. -/
lemma sim_step_inv (config : BacktestConfig) (st : SimState) (bar : Bar)
    (h : sim_inv st) : sim_inv (sim_step config st bar) := by
  obtain ⟨hchain, hlast⟩ := h
  simp only [sim_inv, sim_step]
  split_ifs with h1 h2 h3 h4
  · constructor
    · rw [List.chain'_append]
      refine ⟨hchain, List.chain'_singleton _, ?_⟩
      intro x hx y hy
      have hx' : st.trades.getLast? = some x := hx
      have hy' : y.action = Action.gold_to_silver := by
        simp only [List.head?_cons, Option.mem_def, Option.some.injEq] at hy
        rw [← hy]
      intro hxy
      exact h1.2 (by rw [hlast, hx', Option.map_some', hxy, hy'])
    · rw [List.getLast?_concat]
      rfl
  · exact ⟨hchain, hlast⟩
  · constructor
    · rw [List.chain'_append]
      refine ⟨hchain, List.chain'_singleton _, ?_⟩
      intro x hx y hy
      have hx' : st.trades.getLast? = some x := hx
      have hy' : y.action = Action.silver_to_gold := by
        simp only [List.head?_cons, Option.mem_def, Option.some.injEq] at hy
        rw [← hy]
      intro hxy
      exact h3.2 (by rw [hlast, hx', Option.map_some', hxy, hy'])
    · rw [List.getLast?_concat]
      rfl
  · exact ⟨hchain, hlast⟩
  · exact ⟨hchain, hlast⟩

/-- The debounce invariant holds along the whole simulation fold. -/
lemma foldl_sim_inv (config : BacktestConfig) :
    ∀ (series : List Bar) (st : SimState), sim_inv st →
      sim_inv (series.foldl (sim_step config) st) := by
  intro series
  induction series with
  | nil => intro st h; exact h
  | cons b bs ih =>
      intro st h
      simp only [List.foldl_cons]
      exact ih _ (sim_step_inv config st b h)

/-- After a gold_to_silver trade, a bar whose ratio stays above the low
threshold triggers nothing: the high side is debounced and the low side
does not fire. -/
lemma sim_step_debounced (config : BacktestConfig) (st : SimState) (bar : Bar)
    (hla : st.last_action = some Action.gold_to_silver)
    (hlow : ¬ bar.gsr ≤ config.gsr_low_threshold) :
    (sim_step config st bar).trades = st.trades ∧
    (sim_step config st bar).last_action = some Action.gold_to_silver := by
  simp only [sim_step]
  rw [if_neg (fun hc => hc.2 hla), if_neg (fun hc => hlow hc.1)]
  exact ⟨rfl, hla⟩

/-- Iterated form of the debounce: while every remaining bar stays above
the low threshold, no further trade is logged. -/
lemma foldl_debounced (config : BacktestConfig) :
    ∀ bars : List Bar, (∀ b ∈ bars, ¬ b.gsr ≤ config.gsr_low_threshold) →
      ∀ st : SimState, st.last_action = some Action.gold_to_silver →
        (bars.foldl (sim_step config) st).trades = st.trades := by
  intro bars
  induction bars with
  | nil => intro _ st _; rfl
  | cons b bs ih =>
      intro hbars st hst
      have hb := hbars b (by simp)
      obtain ⟨ht, hl⟩ := sim_step_debounced config st b hst hb
      simp only [List.foldl_cons]
      rw [ih (fun x hx => hbars x (by simp [hx])) _ hl, ht]

/-- C1: the simulator never logs two consecutive trades in the same
direction — a direction re-arms only after the opposite swap — and over a
series sitting exactly at the high threshold for 5 consecutive bars, a
configuration with positive initial gold, positive position size and a
low threshold below the high threshold produces exactly one trade, not
five. -/
theorem backtest_debounce :
    (∀ (series : List Bar) (config : BacktestConfig),
        List.Chain' (fun a b => a.action ≠ b.action)
          (backtest_trades series config)) ∧
    (∀ (config : BacktestConfig) (d : ℤ) (gp sp : ℚ),
        0 < config.initial_gold_oz → 0 < config.position_size_pct →
        config.gsr_low_threshold < config.gsr_high_threshold →
        0 < gp → 0 < sp →
        (backtest_trades
            (List.replicate 5 ⟨d, config.gsr_high_threshold, gp, sp⟩)
            config).length = 1) := by
  constructor
  · intro series config
    exact (foldl_sim_inv config series (init_state config)
      ⟨List.chain'_nil, rfl⟩).1
  · intro config d gp sp hgold hpct hlt hgp hsp
    have hswap : 0 < config.initial_gold_oz * (config.position_size_pct / 100) :=
      mul_pos hgold (div_pos hpct (by norm_num))
    have hrep : List.replicate 5 (⟨d, config.gsr_high_threshold, gp, sp⟩ : Bar)
        = ⟨d, config.gsr_high_threshold, gp, sp⟩
          :: List.replicate 4 ⟨d, config.gsr_high_threshold, gp, sp⟩ := rfl
    rw [backtest_trades, hrep]
    simp only [List.foldl_cons]
    have h1 : (sim_step config (init_state config)
          ⟨d, config.gsr_high_threshold, gp, sp⟩).trades.length = 1 ∧
        (sim_step config (init_state config)
          ⟨d, config.gsr_high_threshold, gp, sp⟩).last_action
          = some Action.gold_to_silver := by
      simp only [sim_step, init_state]
      rw [if_pos ⟨le_refl _, by simp⟩, if_pos hswap]
      simp
    rw [foldl_debounced config
      (List.replicate 4 ⟨d, config.gsr_high_threshold, gp, sp⟩)
      (fun b hb => by
        rw [List.eq_of_mem_replicate hb]
        exact not_le.mpr hlt)
      _ h1.2]
    exact h1.1

/-- Witness for C1 on a one-bar series and on the five-bar
at-threshold series. -/
theorem backtest_debounce_witness :
    ((0 : ℚ) < 100 ∧ (0 : ℚ) < 15 ∧ (65 : ℚ) < 85) ∧
    List.Chain' (fun a b => a.action ≠ b.action)
      (backtest_trades [⟨0, 85, 2000, 25⟩] ⟨100, 85, 65, 15, 0⟩) ∧
    (backtest_trades (List.replicate 5 ⟨0, 85, 2000, 25⟩)
        ⟨100, 85, 65, 15, 0⟩).length = 1 :=
  ⟨⟨by decide, by decide, by decide⟩,
    backtest_debounce.1 [⟨0, 85, 2000, 25⟩] ⟨100, 85, 65, 15, 0⟩,
    backtest_debounce.2 ⟨100, 85, 65, 15, 0⟩ 0 2000 25 (by decide) (by decide)
      (by decide) (by decide) (by decide)⟩

/-- The all_results list after folding one grid combination: an entry is
appended exactly when the simulation succeeds, in both branches of the
best-so-far update. -/
lemma opt_foldl_params (series : List Bar) :
    ∀ (cs : List (ℚ × ℚ × ℚ × ℚ)) (acc : OptState),
      ((cs.foldl (opt_step series) acc).all_results).map OptEntry.params
        = acc.all_results.map OptEntry.params
          ++ cs.filter (fun c => (run_backtest series (config_of c)).isOk) := by
  intro cs
  induction cs with
  | nil => intro acc; simp
  | cons c cs ih =>
      intro acc
      simp only [List.foldl_cons, List.filter_cons]
      cases h : run_backtest series (config_of c) with
      | error e =>
          have hs : opt_step series acc c = acc := by
            simp [opt_step, h]
          rw [ih, hs]
          simp [Except.isOk, Except.toBool]
      | ok r =>
          have hs : (opt_step series acc c).all_results
              = acc.all_results ++ [⟨c.1, c.2.1, c.2.2.1, c.2.2.2,
                  r.gold_oz_gain_pct, r.win_rate, r.total_swaps⟩] := by
            simp only [opt_step, h]
            split_ifs <;> rfl
          rw [ih, hs]
          simp [Except.isOk, Except.toBool, OptEntry.params]

/-- C8: the grid search walks the full Cartesian product in source order;
a combination whose simulation fails is skipped without aborting the
search, each successful combination contributes exactly one all_results
entry, and singleton ranges for every field yield a single entry with
best_params equal to that one combination. -/
theorem optimize_parameters_grid :
    (∀ (series : List Bar) (gh gl ps tc : List ℚ),
        ((optimize_parameters series gh gl ps tc).all_results).map
            OptEntry.params
          = (combos gh gl ps tc).filter
              (fun c => (run_backtest series (config_of c)).isOk)) ∧
    (∀ (series : List Bar) (h l s c : ℚ) (r : BacktestResult),
        run_backtest series (config_of (h, l, s, c)) = Except.ok r →
        (optimize_parameters series [h] [l] [s] [c]).all_results.length = 1 ∧
        (optimize_parameters series [h] [l] [s] [c]).best_params
          = some (h, l, s, c)) := by
  constructor
  · intro series gh gl ps tc
    rw [optimize_parameters, opt_foldl_params series (combos gh gl ps tc)]
    simp
  · intro series h l s c r hr
    have hc : combos [h] [l] [s] [c] = [(h, l, s, c)] := rfl
    rw [optimize_parameters, hc]
    simp only [List.foldl_cons, List.foldl_nil]
    simp [opt_step, hr]

/-- Witness for C8 on a concrete one-bar series with singleton ranges. -/
theorem optimize_parameters_grid_witness :
    ((optimize_parameters [⟨0, 85, 2000, 25⟩] [85] [65] [15] [0]).all_results).length = 1 ∧
    (optimize_parameters [⟨0, 85, 2000, 25⟩] [85] [65] [15] [0]).best_params
      = some (85, 65, 15, 0) :=
  optimize_parameters_grid.2 [⟨0, 85, 2000, 25⟩] 85 65 15 0 _ rfl

/-- Witness for C3 on a concrete one-bar series and an out-of-range
configuration. -/
theorem run_backtest_no_config_validation_witness :
    (run_backtest [⟨1, 70, 1900, 24⟩] ⟨100, 85, 65, -(7 : ℚ), 5⟩).isOk = true ∧
    run_backtest [] ⟨100, 85, 65, -(7 : ℚ), 5⟩ =
      Except.error "No GSR data found for backtest period" :=
  ⟨run_backtest_no_config_validation.1 [⟨1, 70, 1900, 24⟩] ⟨100, 85, 65, -(7 : ℚ), 5⟩
      (by decide),
    run_backtest_no_config_validation.2 ⟨100, 85, 65, -(7 : ℚ), 5⟩⟩

end GSR
